import Mathlib

/-!
Verification of the secure-channel implementation in
`Crypt_Server/Server.py`: length-prefix framing, token authentication,
cooldown rate limiting, disconnect handling, and the five-message key
exchange performed by `Server.key_exchange`.

Modelling conventions:
* byte strings are `List Nat`, one entry per byte;
* timestamps (Python `time()`) are integers, compared exactly as the
  source compares them;
* the raw socket is a `RawConn`: pending incoming data as a list of
  delivery chunks (`socket.recv(n)` returns at most `n` bytes, taken
  from the first pending chunk; an empty pending list models a peer
  that closed the transport, for which `recv` returns `b""`), a record
  of the payloads passed to `socket.send`, a closed flag, a schedule of
  injected I/O faults for the fallible operations used by the
  handshake, and an event trace of all bytes sent and received;
* the cryptographic primitives of `Crypt_Server.Crypt` and
  `Crypto.Random` are not part of the analysed source: they enter as
  function parameters (and, where a claim depends on one of their
  properties, that property is a hypothesis taken from the design
  document's contract for the crypto provider);
* Python exceptions become the `PErr` error type returned through
  `Except`; an uncaught socket timeout inside `Connection.recv`
  propagates in the source and is not exercised by any property below,
  so `Connection.recv` reads through the infallible `recvRaw`.
-/

namespace CryptServer

/-- Byte strings: one natural number per byte. -/
abbrev Bytes := List Nat

/-- Observable events on the raw socket, in program order. -/
inductive NetEvent
  | sent (m : Bytes)
  | received (m : Bytes)
deriving DecidableEq

/-- Model of the raw TCP connection handed to `key_exchange` and stored
inside a `Connection`. -/
structure RawConn where
  inChunks : List Bytes
  sentLog : List Bytes
  closed : Bool
  faults : List Bool
  trace : List NetEvent
deriving DecidableEq

/-- `socket.recv(n)`: returns at most `n` bytes, taken from the first
pending delivery chunk; returns `b""` when the peer has closed (no
pending chunks).  Never raises. -/
def RawConn.recvRaw (c : RawConn) (n : Nat) : Bytes × RawConn :=
  match c.inChunks with
  | [] => ([], { c with trace := c.trace ++ [.received []] })
  | chunk :: rest =>
      (chunk.take n,
       { c with
           inChunks := if chunk.drop n = [] then rest else chunk.drop n :: rest,
           trace := c.trace ++ [.received (chunk.take n)] })

/-- Consume the next entry of the fault-injection schedule: `true`
means the next fallible socket operation raises. -/
def RawConn.step (c : RawConn) : Bool × RawConn :=
  match c.faults with
  | [] => (false, c)
  | f :: rest => (f, { c with faults := rest })

/-- `socket.send(m)` as used inside a `try` block: first component is
`true` on success, `false` when the operation raised. -/
def RawConn.sendOp (c : RawConn) (m : Bytes) : Bool × RawConn :=
  match c.step with
  | (true, c2) => (false, c2)
  | (false, c2) =>
      (true, { c2 with sentLog := c2.sentLog ++ [m], trace := c2.trace ++ [.sent m] })

/-- `socket.recv(n)` as used inside a `try` block: `none` when the
operation raised (I/O error or timeout). -/
def RawConn.recvOp (c : RawConn) (n : Nat) : Option Bytes × RawConn :=
  match c.step with
  | (true, c2) => (none, c2)
  | (false, c2) => (some (c2.recvRaw n).1, (c2.recvRaw n).2)

/-- `socket.close` (also covering `shutdown`): the transport becomes
terminally closed. -/
def RawConn.close (c : RawConn) : RawConn :=
  { c with closed := true }

/-- The exceptions of `Server.py`, plus `overflow` for the
`OverflowError` that `int.to_bytes` raises on an out-of-range length. -/
inductive PErr
  | keyExchangeFailed
  | invalidToken
  | disconnectedClient
  | unableToDecrypt
  | tooManyQueries
  | overflow
deriving DecidableEq

/-- `int.from_bytes(l, "big")`. -/
def fromBytesBE (l : Bytes) : Nat :=
  l.foldl (fun acc b => acc * 256 + b) 0

/-- `n.to_bytes(size, "big")` for `n < 256 ^ size`. -/
def toBytesBE : Nat → Nat → Bytes
  | 0, _ => []
  | s + 1, n => toBytesBE s (n / 256) ++ [n % 256]

/-- Index of the leftmost occurrence of `tok` in `s`, as used by
`bytes.replace`: the empty pattern occurs at index 0. -/
def findOcc (tok : Bytes) : Bytes → Option Nat
  | [] => if tok = [] then some 0 else none
  | a :: rest =>
      if tok = (a :: rest).take tok.length then some 0
      else (findOcc tok rest).map (· + 1)

/-- `s.replace(tok, b"", 1)`: delete the leftmost occurrence of `tok`
from `s` (no change when `tok` does not occur). -/
def replaceFirst (s tok : Bytes) : Bytes :=
  match findOcc tok s with
  | none => s
  | some i => s.take i ++ s.drop (i + tok.length)

/-- Flip bit `b` of byte `i` of a byte string. -/
def flipBit (s : Bytes) (i b : Nat) : Bytes :=
  s.set i (Nat.xor (s.getD i 0) (2 ^ b))

/-- The `Connection` object of `Server.py`. -/
structure Connection where
  conn : RawConn
  client_token : Bytes
  server_token : Bytes
  aes_key : Bytes
  last_query : Int
  query_cooldown : Int
deriving DecidableEq

/-- `Connection.__init__`: stores the transport and the session
secrets, and initialises `last_query = 0`, `query_cooldown = 0`. -/
def Connection.init (conn : RawConn) (client_token server_token aes_key : Bytes) :
    Connection :=
  { conn := conn
    client_token := client_token
    server_token := server_token
    aes_key := aes_key
    last_query := 0
    query_cooldown := 0 }

/-- `Connection.close`: shutdown plus close of the transport. -/
def Connection.close (c : Connection) : Connection :=
  { c with conn := c.conn.close }

/-- `Connection.set_query_cooldown`. -/
def Connection.set_query_cooldown (c : Connection) (cooldown : Int) : Connection :=
  { c with query_cooldown := cooldown }

/-- The frame written by `Connection.send`: the symmetric encryption of
`server_token ++ msg`, preceded by its length as a `number_size`-byte
big-endian integer. -/
def sendFrame (enc : Bytes → Bytes → Bytes) (server_token aes_key msg : Bytes)
    (number_size : Nat) : Bytes :=
  toBytesBE number_size (enc (server_token ++ msg) aes_key).length ++
    enc (server_token ++ msg) aes_key

/-- `Connection.send`: prepend the server token, encrypt under the
symmetric key (`enc` stands for `Crypt.encrypt_aes`), prepend the
big-endian length, write the frame.  `int.to_bytes` raises
`OverflowError` outside the `try` block when the ciphertext length does
not fit `number_size` bytes; a `socket.error` during the write closes
the connection and raises `DisconnectedClient`. -/
def Connection.send (enc : Bytes → Bytes → Bytes) (msg : Bytes) (number_size : Nat)
    (c : Connection) : Except PErr Unit × Connection :=
  if 256 ^ number_size ≤ (enc (c.server_token ++ msg) c.aes_key).length then
    (.error .overflow, c)
  else
    match c.conn.sendOp (sendFrame enc c.server_token c.aes_key msg number_size) with
    | (true, rc) => (.ok (), { c with conn := rc })
    | (false, rc) => (.error .disconnectedClient, Connection.close { c with conn := rc })

/-- `Connection.recv`: cooldown gate, read the length word, read that
many ciphertext bytes, treat an empty payload read as a disconnect,
decrypt (`dec` stands for `Crypt.decrypt_aes`, `none` = raised),
check and strip the client-token prefix, update `last_query`. -/
def Connection.recv (dec : Bytes → Bytes → Option Bytes) (now : Int)
    (number_size : Nat) (c : Connection) : Except PErr Bytes × Connection :=
  if now - c.last_query < c.query_cooldown then
    (.error .tooManyQueries, c)
  else
    match c.conn.recvRaw number_size with
    | (pre, r1) =>
      match r1.recvRaw (fromBytesBE pre) with
      | (msg, r2) =>
        if msg = [] then
          (.error .disconnectedClient, Connection.close { c with conn := r2 })
        else
          match dec msg c.aes_key with
          | none => (.error .unableToDecrypt, { c with conn := r2 })
          | some m =>
            if c.client_token = m.take c.client_token.length then
              (.ok (replaceFirst m c.client_token),
               { c with conn := r2, last_query := now })
            else
              (.error .invalidToken, { c with conn := r2 })

/-- The server's long-lived RSA keypair, `self.claves`. -/
structure Claves where
  PUBLIC : Bytes
  PRIVATE : Bytes
deriving DecidableEq

/-- `Server.key_exchange`: the five-message handshake.  `encrypt_rsa`
and `decrypt_rsa` stand for the RSA primitives of `Crypt_Server.Crypt`
(`none` = decryption raised); `aes_key` and `server_token` are the
outputs of `Crypt.generate_aes(32)` and `get_random_bytes(token_size)`.
Every exception inside the `try` block closes the raw connection and
surfaces as `KeyExchangeFailed`. -/
def key_exchange (encrypt_rsa : Bytes → Bytes → Bytes)
    (decrypt_rsa : Bytes → Bytes → Option Bytes)
    (claves : Claves) (aes_key server_token : Bytes)
    (tunnel_anchor : Nat) (conn : RawConn) :
    Except PErr Connection × RawConn :=
  match conn.sendOp claves.PUBLIC with
  | (false, rc) => (.error .keyExchangeFailed, rc.close)
  | (true, rc1) =>
    match rc1.recvOp tunnel_anchor with
    | (none, rc) => (.error .keyExchangeFailed, rc.close)
    | (some d1, rc2) =>
      match decrypt_rsa d1 claves.PRIVATE with
      | none => (.error .keyExchangeFailed, rc2.close)
      | some public =>
        match rc2.sendOp (encrypt_rsa server_token public) with
        | (false, rc) => (.error .keyExchangeFailed, rc.close)
        | (true, rc3) =>
          match rc3.recvOp tunnel_anchor with
          | (none, rc) => (.error .keyExchangeFailed, rc.close)
          | (some d2, rc4) =>
            match decrypt_rsa d2 claves.PRIVATE with
            | none => (.error .keyExchangeFailed, rc4.close)
            | some token =>
              match rc4.sendOp (encrypt_rsa aes_key public) with
              | (false, rc) => (.error .keyExchangeFailed, rc.close)
              | (true, rc5) =>
                (.ok (Connection.init rc5 token server_token aes_key), rc5)

/-- The raw-connection state after `Connection.recv` has consumed a
single well-formed frame carrying ciphertext `ct`. -/
def afterFrame (rc : RawConn) (ns : Nat) (ct : Bytes) : RawConn :=
  { rc with
      inChunks := []
      trace := rc.trace ++ [.received (toBytesBE ns ct.length), .received ct] }

/-! ### Concrete fixtures used to evaluate the definitions -/

/-- A symmetric decryption that always fails. -/
def decNone : Bytes → Bytes → Option Bytes := fun _ _ => none

/-- A decryption returning its input unchanged. -/
def decSome : Bytes → Bytes → Option Bytes := fun d _ => some d

/-- An asymmetric encryption: concatenate data and key. -/
def encCat : Bytes → Bytes → Bytes := fun d k => d ++ k

/-- A toy authenticated symmetric scheme: append a mod-256 checksum of
plaintext and key. -/
def encSum : Bytes → Bytes → Bytes := fun m k => m ++ [(m.sum + k.sum) % 256]

/-- Decryption for `encSum`: check the trailing checksum, strip it. -/
def decSum : Bytes → Bytes → Option Bytes := fun ctext k =>
  match ctext.getLast? with
  | none => none
  | some chk =>
      if chk = (ctext.dropLast.sum + k.sum) % 256 then some ctext.dropLast else none

/-- A decryption used to exercise the token check. -/
def decTok : Bytes → Bytes → Option Bytes := fun m _ =>
  if m = [1, 2] then some [7, 5, 7] else none

/-- A raw connection with no pending data (peer closed), no faults. -/
def rcEmptyRaw : RawConn := ⟨[], [], false, [], []⟩

/-- A transport delivering a well-formed frame fragmented: one byte of
the length word first, then the rest of the frame. -/
def rcFrag : RawConn := ⟨[[0], [0, 0, 0, 1, 42]], [], false, [], []⟩

/-- Connection over the fragmented transport. -/
def cFrag : Connection := ⟨rcFrag, [7], [8], [9], 0, 0⟩

/-- Connection whose peer has closed the transport. -/
def cClosedPeer : Connection := ⟨rcEmptyRaw, [1], [2], [3], 0, 0⟩

/-- Connection with a 5-second cooldown, last successful receive at 0. -/
def cCool : Connection := ⟨rcEmptyRaw, [1], [2], [3], 0, 5⟩

/-- Connection holding one frame of one ciphertext byte. -/
def cUD : Connection := ⟨⟨[[0, 0, 0, 0, 1], [9]], [], false, [], []⟩, [7], [8], [3], 0, 0⟩

/-- Connection holding one frame whose plaintext under `decTok` starts
(and also ends) with the client token `[7]`. -/
def cTok : Connection := ⟨⟨[[0, 0, 0, 0, 2, 1, 2]], [], false, [], []⟩, [7], [8], [9], 0, 0⟩

/-- Sending endpoint for the round trip: server token `[7]`, key `[3]`. -/
def sSend : Connection := ⟨rcEmptyRaw, [9], [7], [3], 0, 0⟩

/-- Receiving endpoint for the round trip: expects token `[7]`, key
`[3]`, and holds exactly the frame `sSend` produces for payload
`[1, 2]`. -/
def rRecv : Connection :=
  ⟨⟨[sendFrame encSum [7] [3] [1, 2] 5], [], false, [], []⟩, [7], [8], [3], 0, 0⟩

/-- Connection holding the `sSend` frame with bit 0 of ciphertext byte
0 flipped. -/
def cTamper : Connection :=
  ⟨⟨[[0, 0, 0, 0, 4, 6, 1, 2, 13]], [], false, [], []⟩, [7], [8], [3], 0, 0⟩

/-- A concrete server keypair. -/
def clavesW : Claves := ⟨[1], [2]⟩

/-- A raw connection holding the two client handshake messages. -/
def rcKX : RawConn := ⟨[[3], [4]], [], false, [], []⟩

/-! ### Helper lemmas -/

theorem toBytesBE_length (s n : Nat) : (toBytesBE s n).length = s := by
  induction s generalizing n with
  | zero => rfl
  | succ s ih => simp [toBytesBE, ih]

theorem fromBytesBE_toBytesBE (s n : Nat) (h : n < 256 ^ s) :
    fromBytesBE (toBytesBE s n) = n := by
  induction s generalizing n with
  | zero =>
      have : n = 0 := by simpa using h
      simp [this, toBytesBE, fromBytesBE]
  | succ s ih =>
      have hdiv : n / 256 < 256 ^ s := by
        apply (Nat.div_lt_iff_lt_mul (by norm_num : 0 < 256)).2
        calc n < 256 ^ (s + 1) := h
          _ = 256 ^ s * 256 := by rw [pow_succ]
      have hrec := ih (n / 256) hdiv
      unfold toBytesBE fromBytesBE
      rw [List.foldl_append]
      unfold fromBytesBE at hrec
      simp [hrec]
      omega

theorem findOcc_of_take (tok s : Bytes) (h : tok = s.take tok.length) :
    findOcc tok s = some 0 := by
  cases s with
  | nil =>
      have : tok = [] := by simpa using h
      simp [findOcc, this]
  | cons a rest =>
      rw [findOcc, if_pos h]

theorem replaceFirst_of_take (s tok : Bytes) (h : tok = s.take tok.length) :
    replaceFirst s tok = s.drop tok.length := by
  simp [replaceFirst, findOcc_of_take tok s h]

/-- Reading the length word of a well-formed frame: the first pending
chunk is `pre ++ ct` with `pre` of exactly the requested width. -/
theorem recvRaw_frame (rc : RawConn) (ns : Nat) (pre ct : Bytes)
    (hch : rc.inChunks = [pre ++ ct]) (hpre : pre.length = ns) (hct : ct ≠ []) :
    rc.recvRaw ns =
      (pre, { rc with inChunks := [ct], trace := rc.trace ++ [.received pre] }) := by
  have ht : (pre ++ ct).take ns = pre := by
    rw [← hpre]; exact List.take_left pre ct
  have hd : (pre ++ ct).drop ns = ct := by
    rw [← hpre]; exact List.drop_left pre ct
  simp [RawConn.recvRaw, hch, ht, hd, hct]

/-- Reading a chunk whole: the requested count covers the entire first
pending chunk. -/
theorem recvRaw_all (rc : RawConn) (n : Nat) (d : Bytes) (rest : List Bytes)
    (hch : rc.inChunks = d :: rest) (hlen : d.length ≤ n) :
    rc.recvRaw n =
      (d, { rc with inChunks := rest, trace := rc.trace ++ [.received d] }) := by
  simp [RawConn.recvRaw, hch, List.take_of_length_le hlen,
    List.drop_eq_nil_of_le hlen]

/-- Every raw read appends exactly one `received` event. -/
theorem recvRaw_trace_length (rc : RawConn) (n : Nat) :
    ((rc.recvRaw n).2).trace.length = rc.trace.length + 1 := by
  unfold RawConn.recvRaw
  cases h : rc.inChunks <;> simp

/-- Master computation lemma: `Connection.recv` on a connection whose
transport holds exactly one well-formed frame with nonempty ciphertext
`ct` reduces to the decrypt-and-check-token logic. -/
theorem recv_frame_cases (dec : Bytes → Bytes → Option Bytes) (now : Int)
    (ns : Nat) (c : Connection) (ct : Bytes)
    (hch : c.conn.inChunks = [toBytesBE ns ct.length ++ ct])
    (hne : ct ≠ []) (hlen : ct.length < 256 ^ ns)
    (hcool : ¬ (now - c.last_query < c.query_cooldown)) :
    Connection.recv dec now ns c =
      match dec ct c.aes_key with
      | none => (.error .unableToDecrypt, { c with conn := afterFrame c.conn ns ct })
      | some m =>
          if c.client_token = m.take c.client_token.length then
            (.ok (replaceFirst m c.client_token),
             { c with conn := afterFrame c.conn ns ct, last_query := now })
          else
            (.error .invalidToken, { c with conn := afterFrame c.conn ns ct }) := by
  have h1 := recvRaw_frame c.conn ns (toBytesBE ns ct.length) ct hch
    (toBytesBE_length ns ct.length) hne
  simp only [Connection.recv, if_neg hcool, h1]
  rw [fromBytesBE_toBytesBE ns ct.length hlen]
  rw [recvRaw_all _ ct.length ct [] rfl (Nat.le_refl _)]
  rw [if_neg hne]
  cases hdec : dec ct c.aes_key with
  | none => simp [afterFrame, List.append_assoc]
  | some m =>
      dsimp only
      by_cases htok : c.client_token = m.take c.client_token.length
      · rw [if_pos htok, if_pos htok]
        simp [afterFrame, List.append_assoc]
      · rw [if_neg htok, if_neg htok]
        simp [afterFrame, List.append_assoc]

/-- When the cooldown has elapsed, `recv` is never rate limited and
performs exactly two transport reads. -/
theorem recv_proceeds (dec : Bytes → Bytes → Option Bytes) (now : Int)
    (ns : Nat) (c : Connection)
    (h : ¬ (now - c.last_query < c.query_cooldown)) :
    (Connection.recv dec now ns c).1 ≠ .error .tooManyQueries ∧
    ((Connection.recv dec now ns c).2).conn.trace.length =
      c.conn.trace.length + 2 := by
  unfold Connection.recv
  rw [if_neg h]
  have e1 : (c.conn.recvRaw ns).2.trace.length = c.conn.trace.length + 1 :=
    recvRaw_trace_length c.conn ns
  rcases h1 : c.conn.recvRaw ns with ⟨pre, r1⟩
  have e1' : r1.trace.length = c.conn.trace.length + 1 := by
    rw [← e1, h1]
  have e2 : (r1.recvRaw (fromBytesBE pre)).2.trace.length = r1.trace.length + 1 :=
    recvRaw_trace_length r1 (fromBytesBE pre)
  rcases h2 : r1.recvRaw (fromBytesBE pre) with ⟨msg, r2⟩
  have e2' : r2.trace.length = c.conn.trace.length + 2 := by
    rw [h2] at e2
    simp at e2
    omega
  simp only [h2]
  by_cases hm : msg = []
  · simp [hm, Connection.close, RawConn.close, e2']
  · cases hdec : dec msg c.aes_key with
    | none => simp [hm, hdec, e2']
    | some m =>
        rw [if_neg hm]
        dsimp only
        by_cases htok : c.client_token = m.take c.client_token.length
        · rw [if_pos htok]
          simp [e2']
        · rw [if_neg htok]
          simp [e2']

/-- A raw read never changes the closed flag. -/
theorem recvRaw_closed (rc : RawConn) (n : Nat) :
    ((rc.recvRaw n).2).closed = rc.closed := by
  unfold RawConn.recvRaw
  cases h : rc.inChunks <;> simp

/-- Exhaustive shape analysis of `Connection.recv`: the five possible
outcomes, with the connection state each one leaves behind.  In the
three content-level outcomes the transport keeps its closed flag. -/
theorem recv_shape (dec : Bytes → Bytes → Option Bytes) (now : Int) (ns : Nat)
    (c : Connection) :
    Connection.recv dec now ns c = (.error .tooManyQueries, c) ∨
    (∃ rc, Connection.recv dec now ns c =
        (.error .disconnectedClient, Connection.close { c with conn := rc })) ∨
    (∃ rc, rc.closed = c.conn.closed ∧
        Connection.recv dec now ns c = (.error .unableToDecrypt, { c with conn := rc })) ∨
    (∃ rc, rc.closed = c.conn.closed ∧
        Connection.recv dec now ns c = (.error .invalidToken, { c with conn := rc })) ∨
    (∃ rc m, rc.closed = c.conn.closed ∧
        Connection.recv dec now ns c = (.ok m, { c with conn := rc, last_query := now })) := by
  unfold Connection.recv
  by_cases hcool : now - c.last_query < c.query_cooldown
  · left
    rw [if_pos hcool]
  · rw [if_neg hcool]
    cases h1 : c.conn.recvRaw ns with
    | mk pre r1 =>
      have hc1 : r1.closed = c.conn.closed := by
        have := recvRaw_closed c.conn ns
        rw [h1] at this
        exact this
      cases h2 : r1.recvRaw (fromBytesBE pre) with
      | mk msg r2 =>
        have hc2 : r2.closed = c.conn.closed := by
          have := recvRaw_closed r1 (fromBytesBE pre)
          rw [h2] at this
          rw [← hc1]
          exact this
        dsimp only
        simp only [h2]
        by_cases hm : msg = []
        · rw [if_pos hm]
          right; left
          exact ⟨r2, rfl⟩
        · rw [if_neg hm]
          cases hdec : dec msg c.aes_key with
          | none =>
              right; right; left
              exact ⟨r2, hc2, rfl⟩
          | some m =>
              dsimp only
              by_cases htok : c.client_token = m.take c.client_token.length
              · rw [if_pos htok]
                right; right; right; right
                exact ⟨r2, replaceFirst m c.client_token, hc2, rfl⟩
              · rw [if_neg htok]
                right; right; right; left
                exact ⟨r2, hc2, rfl⟩

/-- Exhaustive shape analysis of `key_exchange`: either it returns a
`Connection`, or it fails with `KeyExchangeFailed` leaving the raw
connection closed. -/
theorem kx_shape (encrypt_rsa : Bytes → Bytes → Bytes)
    (decrypt_rsa : Bytes → Bytes → Option Bytes) (claves : Claves)
    (aes_key server_token : Bytes) (tunnel_anchor : Nat) (conn : RawConn) :
    (∃ cn rc, key_exchange encrypt_rsa decrypt_rsa claves aes_key server_token
        tunnel_anchor conn = (.ok cn, rc)) ∨
    (∃ rc, key_exchange encrypt_rsa decrypt_rsa claves aes_key server_token
        tunnel_anchor conn = (.error .keyExchangeFailed, rc) ∧ rc.closed = true) := by
  unfold key_exchange
  cases h1 : conn.sendOp claves.PUBLIC with
  | mk ok1 rc1 =>
    cases ok1 with
    | false => exact Or.inr ⟨rc1.close, rfl, rfl⟩
    | true =>
      dsimp only
      cases h2 : rc1.recvOp tunnel_anchor with
      | mk od1 rc2 =>
        cases od1 with
        | none => exact Or.inr ⟨rc2.close, rfl, rfl⟩
        | some d1 =>
          dsimp only
          cases h3 : decrypt_rsa d1 claves.PRIVATE with
          | none => exact Or.inr ⟨rc2.close, rfl, rfl⟩
          | some public =>
            dsimp only
            cases h4 : rc2.sendOp (encrypt_rsa server_token public) with
            | mk ok2 rc3 =>
              cases ok2 with
              | false => exact Or.inr ⟨rc3.close, rfl, rfl⟩
              | true =>
                dsimp only
                cases h5 : rc3.recvOp tunnel_anchor with
                | mk od2 rc4 =>
                  cases od2 with
                  | none => exact Or.inr ⟨rc4.close, rfl, rfl⟩
                  | some d2 =>
                    dsimp only
                    cases h6 : decrypt_rsa d2 claves.PRIVATE with
                    | none => exact Or.inr ⟨rc4.close, rfl, rfl⟩
                    | some token =>
                      dsimp only
                      cases h7 : rc4.sendOp (encrypt_rsa aes_key public) with
                      | mk ok3 rc5 =>
                        cases ok3 with
                        | false => exact Or.inr ⟨rc5.close, rfl, rfl⟩
                        | true =>
                          exact Or.inl
                            ⟨Connection.init rc5 token server_token aes_key, rc5, rfl⟩

/-! ### Claim theorems -/

/-- Claim C6: a `recv` issued while `now - last_query < query_cooldown`
fails with `TooManyQueries` leaving the connection state (transport
included) exactly as it was, reading nothing; a `recv` issued once the
cooldown has elapsed is never rate limited and performs its two
transport reads. -/
theorem recv_cooldown_gate (dec : Bytes → Bytes → Option Bytes) (now : Int)
    (ns : Nat) (c : Connection) :
    (now - c.last_query < c.query_cooldown →
      Connection.recv dec now ns c = (.error .tooManyQueries, c)) ∧
    (c.query_cooldown ≤ now - c.last_query →
      (Connection.recv dec now ns c).1 ≠ .error .tooManyQueries ∧
      ((Connection.recv dec now ns c).2).conn.trace.length =
        c.conn.trace.length + 2) := by
  constructor
  · intro hlt
    unfold Connection.recv
    rw [if_pos hlt]
  · intro hge
    exact recv_proceeds dec now ns c (not_lt.mpr hge)

theorem recv_cooldown_gate_witness :
    Connection.recv decNone 3 5 cCool = (.error .tooManyQueries, cCool) ∧
    (Connection.recv decNone 10 5 cCool).1 ≠ .error .tooManyQueries :=
  ⟨(recv_cooldown_gate decNone 3 5 cCool).1 (by decide),
   ((recv_cooldown_gate decNone 10 5 cCool).2 (by decide)).1⟩

/-- Claim C10: a fresh `Connection` starts with `last_query = 0` and
`query_cooldown = 0`; `set_query_cooldown 0` keeps the cooldown at 0;
and any connection whose cooldown is 0 (time being monotone, the
current time is at least the recorded last query time) never fails
with `TooManyQueries`. -/
theorem fresh_connection_never_rate_limited (rc : RawConn) (ct st ak : Bytes)
    (dec : Bytes → Bytes → Option Bytes) (now : Int) (ns : Nat) (c : Connection)
    (h0 : c.query_cooldown = 0) (hle : c.last_query ≤ now) :
    (Connection.init rc ct st ak).last_query = 0 ∧
    (Connection.init rc ct st ak).query_cooldown = 0 ∧
    ((Connection.init rc ct st ak).set_query_cooldown 0).query_cooldown = 0 ∧
    (Connection.recv dec now ns c).1 ≠ .error .tooManyQueries := by
  refine ⟨rfl, rfl, rfl, ?_⟩
  have hcool : ¬ (now - c.last_query < c.query_cooldown) := by
    rw [h0]
    omega
  exact (recv_proceeds dec now ns c hcool).1

theorem fresh_connection_never_rate_limited_witness :
    (Connection.init rcEmptyRaw [1] [2] [3]).last_query = 0 ∧
    (Connection.init rcEmptyRaw [1] [2] [3]).query_cooldown = 0 ∧
    ((Connection.init rcEmptyRaw [1] [2] [3]).set_query_cooldown 0).query_cooldown = 0 ∧
    (Connection.recv decNone 0 5 (Connection.init rcEmptyRaw [1] [2] [3])).1 ≠
      .error .tooManyQueries :=
  fresh_connection_never_rate_limited rcEmptyRaw [1] [2] [3] decNone 0 5
    (Connection.init rcEmptyRaw [1] [2] [3]) rfl (by decide)

/-- Claim C7: when the payload read returns zero bytes (the peer closed
the transport), `recv` closes the connection and fails with
`DisconnectedClient`; in particular a disconnect at the length-prefix
boundary yields an empty prefix, which decodes to length 0, and the
ensuing empty payload read takes this same path. -/
theorem recv_disconnect_on_empty_read (dec : Bytes → Bytes → Option Bytes)
    (now : Int) (ns : Nat) (c : Connection)
    (hcool : ¬ (now - c.last_query < c.query_cooldown))
    (hmsg : ((c.conn.recvRaw ns).2.recvRaw (fromBytesBE (c.conn.recvRaw ns).1)).1 = []) :
    (Connection.recv dec now ns c).1 = .error .disconnectedClient ∧
    ((Connection.recv dec now ns c).2).conn.closed = true ∧
    (c.conn.inChunks = [] →
      (c.conn.recvRaw ns).1 = [] ∧ fromBytesBE (c.conn.recvRaw ns).1 = 0) := by
  have hmain : (Connection.recv dec now ns c).1 = .error .disconnectedClient ∧
      ((Connection.recv dec now ns c).2).conn.closed = true := by
    unfold Connection.recv
    rw [if_neg hcool]
    cases h1 : c.conn.recvRaw ns with
    | mk pre r1 =>
      rw [h1] at hmsg
      dsimp only at hmsg ⊢
      cases h2 : r1.recvRaw (fromBytesBE pre) with
      | mk msg r2 =>
        rw [h2] at hmsg
        simp only [h2]
        rw [if_pos hmsg]
        exact ⟨rfl, rfl⟩
  refine ⟨hmain.1, hmain.2, ?_⟩
  intro hch
  constructor
  · simp [RawConn.recvRaw, hch]
  · simp [RawConn.recvRaw, hch, fromBytesBE]

theorem recv_disconnect_on_empty_read_witness :
    (Connection.recv decNone 0 5 cClosedPeer).1 = .error .disconnectedClient ∧
    ((Connection.recv decNone 0 5 cClosedPeer).2).conn.closed = true :=
  ⟨(recv_disconnect_on_empty_read decNone 0 5 cClosedPeer (by decide) (by decide)).1,
   (recv_disconnect_on_empty_read decNone 0 5 cClosedPeer (by decide) (by decide)).2.1⟩

/-- Claim C8: whenever `recv` fails with `UnableToDecrypt` or
`InvalidToken`, the connection is left intact: the transport keeps its
closed flag, and the tokens, the symmetric key, the last-query
timestamp and the cooldown are unchanged. -/
theorem recv_content_errors_leave_open (dec : Bytes → Bytes → Option Bytes)
    (now : Int) (ns : Nat) (c : Connection)
    (herr : (Connection.recv dec now ns c).1 = .error .unableToDecrypt ∨
        (Connection.recv dec now ns c).1 = .error .invalidToken) :
    ((Connection.recv dec now ns c).2).conn.closed = c.conn.closed ∧
    ((Connection.recv dec now ns c).2).client_token = c.client_token ∧
    ((Connection.recv dec now ns c).2).server_token = c.server_token ∧
    ((Connection.recv dec now ns c).2).aes_key = c.aes_key ∧
    ((Connection.recv dec now ns c).2).last_query = c.last_query ∧
    ((Connection.recv dec now ns c).2).query_cooldown = c.query_cooldown := by
  rcases recv_shape dec now ns c with h | ⟨rc, h⟩ | ⟨rc, hcl, h⟩ | ⟨rc, hcl, h⟩ |
      ⟨rc, m, hcl, h⟩
  · rw [h]
    exact ⟨rfl, rfl, rfl, rfl, rfl, rfl⟩
  · rw [h] at herr
    rcases herr with h' | h' <;> simp at h'
  · rw [h]
    exact ⟨hcl, rfl, rfl, rfl, rfl, rfl⟩
  · rw [h]
    exact ⟨hcl, rfl, rfl, rfl, rfl, rfl⟩
  · rw [h] at herr
    rcases herr with h' | h' <;> simp at h'

theorem recv_content_errors_leave_open_witness :
    ((Connection.recv decNone 0 5 cUD).2).conn.closed = cUD.conn.closed ∧
    ((Connection.recv decNone 0 5 cUD).2).client_token = cUD.client_token ∧
    ((Connection.recv decNone 0 5 cUD).2).server_token = cUD.server_token ∧
    ((Connection.recv decNone 0 5 cUD).2).aes_key = cUD.aes_key ∧
    ((Connection.recv decNone 0 5 cUD).2).last_query = cUD.last_query ∧
    ((Connection.recv decNone 0 5 cUD).2).query_cooldown = cUD.query_cooldown :=
  recv_content_errors_leave_open decNone 0 5 cUD (Or.inl rfl)

/-- Claim C5 fails on the code (`conn.recv(n)` returns at most `n`
bytes and the code never loops): on a transport that delivers the
5-byte length word fragmented — 1 byte, then the remaining 4 bytes
followed by the 1-byte ciphertext, together a complete well-formed
frame — `recv` reads a 1-byte length word instead of 5 bytes, decodes
length 0, and misreports a disconnect. -/
theorem recv_short_read_misframes :
    cFrag.conn.inChunks.flatten = toBytesBE 5 ([42] : Bytes).length ++ [42] ∧
    (cFrag.conn.recvRaw 5).1 = [0] ∧
    (cFrag.conn.recvRaw 5).1.length = 1 ∧
    (Connection.recv decSome 0 5 cFrag).1 = .error .disconnectedClient :=
  ⟨rfl, rfl, rfl, rfl⟩

/-- Claim C1: on an established pair — sender holding token `t` and key
`k`, receiver expecting token `t` under the same key `k` — with the
cooldown elapsed and the ciphertext within the `number_size` frame
bound, `send` succeeds, writes exactly one frame, and `recv` on that
frame returns the payload `P` byte for byte.  The crypto provider
contract enters as hypotheses: decryption inverts encryption at this
plaintext, and the ciphertext is nonempty. -/
theorem round_trip (enc : Bytes → Bytes → Bytes) (dec : Bytes → Bytes → Option Bytes)
    (k t P : Bytes) (ns : Nat) (now : Int) (s r : Connection)
    (hs_tok : s.server_token = t) (hs_key : s.aes_key = k)
    (hs_fault : s.conn.faults = [])
    (hr_tok : r.client_token = t) (hr_key : r.aes_key = k)
    (hr_ch : r.conn.inChunks = [sendFrame enc t k P ns])
    (hcool : ¬ (now - r.last_query < r.query_cooldown))
    (hdec : dec (enc (t ++ P) k) k = some (t ++ P))
    (hne : enc (t ++ P) k ≠ [])
    (hlen : (enc (t ++ P) k).length < 256 ^ ns) :
    (Connection.send enc P ns s).1 = .ok () ∧
    ((Connection.send enc P ns s).2).conn.sentLog =
      s.conn.sentLog ++ [sendFrame enc t k P ns] ∧
    (Connection.recv dec now ns r).1 = .ok P := by
  have htake : (t ++ P).take t.length = t := List.take_left t P
  have hsend : Connection.send enc P ns s =
      (.ok (), { s with conn :=
        { s.conn with
            sentLog := s.conn.sentLog ++ [sendFrame enc t k P ns]
            trace := s.conn.trace ++ [.sent (sendFrame enc t k P ns)] } }) := by
    unfold Connection.send
    rw [hs_tok, hs_key, if_neg (not_le.mpr hlen)]
    unfold RawConn.sendOp RawConn.step
    rw [hs_fault]
  refine ⟨by rw [hsend], by rw [hsend], ?_⟩
  have h := recv_frame_cases dec now ns r (enc (t ++ P) k) hr_ch hne hlen hcool
  rw [hr_key, hdec] at h
  dsimp only at h
  rw [hr_tok] at h
  rw [if_pos (by rw [htake] : t = (t ++ P).take t.length)] at h
  rw [h]
  dsimp only
  rw [replaceFirst_of_take (t ++ P) t htake.symm, List.drop_left t P]

theorem round_trip_witness :
    (Connection.send encSum [1, 2] 5 sSend).1 = .ok () ∧
    ((Connection.send encSum [1, 2] 5 sSend).2).conn.sentLog =
      sSend.conn.sentLog ++ [sendFrame encSum [7] [3] [1, 2] 5] ∧
    (Connection.recv decSum 0 5 rRecv).1 = .ok [1, 2] :=
  round_trip encSum decSum [3] [7] [1, 2] 5 0 sSend rRecv rfl rfl rfl rfl rfl rfl
    (by decide) (by decide) (by decide) (by decide)

/-- Claim C4: after a successful decryption of a well-formed frame into
plaintext `p`: if `p`'s prefix of the client-token's length differs
from the client token, `recv` fails with `InvalidToken` (discarding the
payload, `last_query` untouched); if it matches, `recv` strips exactly
that prefix — returning `p.drop client_token.length`, even when the
token bytes occur again later in `p` — and sets `last_query` to now. -/
theorem recv_token_check_and_strip (dec : Bytes → Bytes → Option Bytes)
    (now : Int) (ns : Nat) (c : Connection) (ct p : Bytes)
    (hch : c.conn.inChunks = [toBytesBE ns ct.length ++ ct])
    (hne : ct ≠ []) (hlen : ct.length < 256 ^ ns)
    (hcool : ¬ (now - c.last_query < c.query_cooldown))
    (hdec : dec ct c.aes_key = some p) :
    (¬ c.client_token = p.take c.client_token.length →
      (Connection.recv dec now ns c).1 = .error .invalidToken ∧
      ((Connection.recv dec now ns c).2).last_query = c.last_query) ∧
    (c.client_token = p.take c.client_token.length →
      (Connection.recv dec now ns c).1 = .ok (p.drop c.client_token.length) ∧
      ((Connection.recv dec now ns c).2).last_query = now) := by
  have h := recv_frame_cases dec now ns c ct hch hne hlen hcool
  rw [hdec] at h
  dsimp only at h
  constructor
  · intro htok
    rw [if_neg htok] at h
    rw [h]
    exact ⟨rfl, rfl⟩
  · intro htok
    rw [if_pos htok] at h
    rw [h]
    refine ⟨?_, rfl⟩
    dsimp only
    rw [replaceFirst_of_take p c.client_token htok]

theorem recv_token_check_and_strip_witness :
    (Connection.recv decTok 3 5 cTok).1 = .ok [5, 7] ∧
    ((Connection.recv decTok 3 5 cTok).2).last_query = 3 :=
  (recv_token_check_and_strip decTok 3 5 cTok [1, 2] [7, 5, 7]
    (by decide) (by decide) (by decide) (by decide) (by decide)).2 (by decide)

/-- Claim C9: flipping any single bit of the transmitted ciphertext
makes `recv` fail with `UnableToDecrypt` or `InvalidToken`; it never
returns a payload.  The crypto provider contract that symmetric
decryption fails on a tampered ciphertext enters as the hypothesis
`hdec`. -/
theorem tampered_frame_rejected (enc : Bytes → Bytes → Bytes)
    (dec : Bytes → Bytes → Option Bytes) (k t P : Bytes) (ns : Nat) (now : Int)
    (c : Connection) (i b : Nat)
    (hkey : c.aes_key = k)
    (hch : c.conn.inChunks =
      [toBytesBE ns (enc (t ++ P) k).length ++ flipBit (enc (t ++ P) k) i b])
    (hne : enc (t ++ P) k ≠ [])
    (hlen : (enc (t ++ P) k).length < 256 ^ ns)
    (hcool : ¬ (now - c.last_query < c.query_cooldown))
    (hdec : dec (flipBit (enc (t ++ P) k) i b) k = none) :
    ((Connection.recv dec now ns c).1 = .error .unableToDecrypt ∨
     (Connection.recv dec now ns c).1 = .error .invalidToken) ∧
    (Connection.recv dec now ns c).1 ≠ .ok P := by
  have hlenflip : (flipBit (enc (t ++ P) k) i b).length = (enc (t ++ P) k).length :=
    List.length_set (enc (t ++ P) k) i (Nat.xor ((enc (t ++ P) k).getD i 0) (2 ^ b))
  have hneflip : flipBit (enc (t ++ P) k) i b ≠ [] := by
    intro hnil
    apply hne
    have := congrArg List.length hnil
    rw [hlenflip] at this
    exact List.length_eq_zero.mp this
  have hch' : c.conn.inChunks =
      [toBytesBE ns (flipBit (enc (t ++ P) k) i b).length ++ flipBit (enc (t ++ P) k) i b] := by
    rw [hlenflip]
    exact hch
  have h := recv_frame_cases dec now ns c (flipBit (enc (t ++ P) k) i b) hch' hneflip
    (by rw [hlenflip]; exact hlen) hcool
  rw [hkey, hdec] at h
  dsimp only at h
  rw [h]
  exact ⟨Or.inl rfl, by simp⟩

theorem tampered_frame_rejected_witness :
    (Connection.recv decSum 0 5 cTamper).1 = .error .unableToDecrypt ∨
    (Connection.recv decSum 0 5 cTamper).1 = .error .invalidToken :=
  (tampered_frame_rejected encSum decSum [3] [7] [1, 2] 5 0 cTamper 0 0
    rfl (by decide) (by decide) (by decide) (by decide) (by decide)).1

/-- Claim C2: on a faultless transport whose client delivers its two
handshake messages `d1`, `d2` (each within the `tunnel_anchor` read
bound) and whose decryptions succeed, `key_exchange` produces on the
wire exactly the five handshake messages, in order: the plaintext
public key, the first receive, the server token encrypted under the
decrypted client key, the second receive, and the symmetric key
encrypted under the client key — nothing else — and returns a
connection holding exactly the decrypted client token, the generated
server token (of `token_size` bytes), and the symmetric key. -/
theorem kx_five_messages (encrypt_rsa : Bytes → Bytes → Bytes)
    (decrypt_rsa : Bytes → Bytes → Option Bytes) (claves : Claves)
    (aes_key server_token : Bytes) (token_size tunnel_anchor : Nat)
    (conn : RawConn) (d1 d2 public tok : Bytes)
    (hf : conn.faults = [])
    (hch : conn.inChunks = [d1, d2])
    (h1 : d1.length ≤ tunnel_anchor) (h2 : d2.length ≤ tunnel_anchor)
    (hd1 : decrypt_rsa d1 claves.PRIVATE = some public)
    (hd2 : decrypt_rsa d2 claves.PRIVATE = some tok)
    (hts : server_token.length = token_size) :
    (key_exchange encrypt_rsa decrypt_rsa claves aes_key server_token
        tunnel_anchor conn).1 =
      .ok (Connection.init
        (key_exchange encrypt_rsa decrypt_rsa claves aes_key server_token
          tunnel_anchor conn).2 tok server_token aes_key) ∧
    ((key_exchange encrypt_rsa decrypt_rsa claves aes_key server_token
        tunnel_anchor conn).2).trace =
      conn.trace ++ [.sent claves.PUBLIC, .received d1,
        .sent (encrypt_rsa server_token public), .received d2,
        .sent (encrypt_rsa aes_key public)] ∧
    ((key_exchange encrypt_rsa decrypt_rsa claves aes_key server_token
        tunnel_anchor conn).2).sentLog =
      conn.sentLog ++ [claves.PUBLIC, encrypt_rsa server_token public,
        encrypt_rsa aes_key public] ∧
    ((key_exchange encrypt_rsa decrypt_rsa claves aes_key server_token
        tunnel_anchor conn).2).inChunks = [] ∧
    ((key_exchange encrypt_rsa decrypt_rsa claves aes_key server_token
        tunnel_anchor conn).2).closed = conn.closed ∧
    server_token.length = token_size := by
  have hkx : key_exchange encrypt_rsa decrypt_rsa claves aes_key server_token
      tunnel_anchor conn =
      (.ok (Connection.init
        { conn with
            inChunks := []
            sentLog := conn.sentLog ++ [claves.PUBLIC,
              encrypt_rsa server_token public, encrypt_rsa aes_key public]
            trace := conn.trace ++ [.sent claves.PUBLIC, .received d1,
              .sent (encrypt_rsa server_token public), .received d2,
              .sent (encrypt_rsa aes_key public)] }
        tok server_token aes_key),
       { conn with
           inChunks := []
           sentLog := conn.sentLog ++ [claves.PUBLIC,
             encrypt_rsa server_token public, encrypt_rsa aes_key public]
           trace := conn.trace ++ [.sent claves.PUBLIC, .received d1,
             .sent (encrypt_rsa server_token public), .received d2,
             .sent (encrypt_rsa aes_key public)] }) := by
    simp [key_exchange, RawConn.sendOp, RawConn.recvOp, RawConn.step,
      RawConn.recvRaw, RawConn.close, Connection.init, hf, hch, hd1, hd2, h1, h2,
      List.take_of_length_le h1, List.drop_eq_nil_of_le h1,
      List.take_of_length_le h2, List.drop_eq_nil_of_le h2, List.append_assoc]
  rw [hkx]
  exact ⟨rfl, rfl, rfl, rfl, rfl, hts⟩

theorem kx_five_messages_witness :
    (key_exchange encCat decSome clavesW [5] [6, 6] 10 rcKX).1 =
      .ok (Connection.init
        (key_exchange encCat decSome clavesW [5] [6, 6] 10 rcKX).2 [4] [6, 6] [5]) ∧
    ((key_exchange encCat decSome clavesW [5] [6, 6] 10 rcKX).2).trace =
      rcKX.trace ++ [.sent clavesW.PUBLIC, .received [3],
        .sent (encCat [6, 6] [3]), .received [4], .sent (encCat [5] [3])] ∧
    ((key_exchange encCat decSome clavesW [5] [6, 6] 10 rcKX).2).sentLog =
      rcKX.sentLog ++ [clavesW.PUBLIC, encCat [6, 6] [3], encCat [5] [3]] ∧
    ((key_exchange encCat decSome clavesW [5] [6, 6] 10 rcKX).2).inChunks = [] ∧
    ((key_exchange encCat decSome clavesW [5] [6, 6] 10 rcKX).2).closed = rcKX.closed ∧
    ([6, 6] : Bytes).length = 2 :=
  kx_five_messages encCat decSome clavesW [5] [6, 6] 2 10 rcKX [3] [4] [3] [4]
    rfl rfl (by decide) (by decide) rfl rfl rfl

/-- Claim C3: whenever `key_exchange` fails — any send raising, any
receive raising (I/O error or timeout), or either RSA decryption
failing — the error is `KeyExchangeFailed`, the raw connection it
leaves behind is closed, and no `Connection` is produced. -/
theorem kx_failure_closes (encrypt_rsa : Bytes → Bytes → Bytes)
    (decrypt_rsa : Bytes → Bytes → Option Bytes) (claves : Claves)
    (aes_key server_token : Bytes) (tunnel_anchor : Nat) (conn : RawConn)
    (e : PErr)
    (h : (key_exchange encrypt_rsa decrypt_rsa claves aes_key server_token
        tunnel_anchor conn).1 = .error e) :
    e = .keyExchangeFailed ∧
    ((key_exchange encrypt_rsa decrypt_rsa claves aes_key server_token
        tunnel_anchor conn).2).closed = true := by
  rcases kx_shape encrypt_rsa decrypt_rsa claves aes_key server_token
      tunnel_anchor conn with ⟨cn, rc, hkx⟩ | ⟨rc, hkx, hcl⟩
  · rw [hkx] at h
    simp at h
  · rw [hkx] at h ⊢
    refine ⟨?_, hcl⟩
    dsimp only at h
    injection h with h'
    exact h'.symm

theorem kx_failure_closes_witness :
    PErr.keyExchangeFailed = PErr.keyExchangeFailed ∧
    ((key_exchange encCat decNone clavesW [5] [6, 6] 10 rcKX).2).closed = true :=
  kx_failure_closes encCat decNone clavesW [5] [6, 6] 10 rcKX .keyExchangeFailed rfl

end CryptServer
